import Mathlib

/-!
Shallow embedding of `tempo_tfidf.py` (class `TempoTFIDF`), the scoring
pipeline of the temporal TF-IDF repository, together with proofs about the
claims of its specification.

Conventions of the embedding:
* Python dicts are association lists in insertion order (`List (κ × ν)`);
  `dict(Counter(..))` keeps first-occurrence order of keys.
* Python exceptions (`ValueError` from `strptime`, from the granularity
  check, and from `max([])`) are an explicit `Except PyError` result.
* Python floats are an arbitrary linear ordered field `K` (instantiated at
  `ℝ` for the analytic claims and at `ℚ` for executable evaluations);
  `math.pow(x, 0.5)` and `math.log` are passed in as the functions
  `sqrt log : K → K` and instantiated with `Real.sqrt` / `Real.log`.
-/

namespace TempoTFIDF

/-- Error outcomes of the pipeline.  All three are `ValueError` in the
source: `dateParse` from `datetime.strptime` (line 308), `invalidGranularity`
from the `else` branch of `extract_date` (lines 316-318), `emptyMax` from
`max([])` in `max_dict_value` (lines 207-208, reached at line 236). -/
inductive PyError where
  | dateParse
  | invalidGranularity
  | emptyMax
deriving DecidableEq

/-- A parsed calendar date, the result of `datetime.strptime`. -/
structure Date where
  year : Nat
  month : Nat
  day : Nat
deriving DecidableEq

/-- Whether a year is a Gregorian leap year. -/
def isLeap (y : Nat) : Bool :=
  (y % 4 == 0 && y % 100 != 0) || y % 400 == 0

/-- Number of days in a month. -/
def daysInMonth (y m : Nat) : Nat :=
  if m = 2 then (if isLeap y then 29 else 28)
  else if m = 4 ∨ m = 6 ∨ m = 9 ∨ m = 11 then 30
  else 31

/-- Days in the months strictly before month `m` of a year with leap flag `l`. -/
def cumDaysBefore (m : Nat) (l : Bool) : Nat :=
  match m with
  | 0 => 0
  | n + 1 => if n = 0 then 0 else cumDaysBefore n l + daysInMonth (if l then 2000 else 1900) n

/-- Day of the year, 1-based (January 1 is day 1). -/
def dayOfYear (y m d : Nat) : Nat :=
  cumDaysBefore m (isLeap y) + d

/-- Number of leap years in `1..y`. -/
def leapsUpTo (y : Nat) : Nat :=
  y / 4 - y / 100 + y / 400

/-- Days elapsed since 0001-01-01 of the proleptic Gregorian calendar
(0001-01-01 itself is day 0, a Monday, matching `datetime.date`). -/
def daysFromCivil (y m d : Nat) : Nat :=
  365 * (y - 1) + leapsUpTo (y - 1) + dayOfYear y m d - 1

/-- Day of the week with Sunday = 0, as used by `strftime` directive `%U`. -/
def weekdaySun0 (y m d : Nat) : Nat :=
  (daysFromCivil y m d + 1) % 7

/-- Week number of the year per `strftime` directive `%U`: weeks start on
Sunday and all days before the first Sunday belong to week 0. -/
def weekU (y m d : Nat) : Nat :=
  (dayOfYear y m d - 1 + 7 - weekdaySun0 y m d) / 7

/-- Full month name, per `strftime` directive `%B`. -/
def monthName : Nat → String
  | 1 => "January"
  | 2 => "February"
  | 3 => "March"
  | 4 => "April"
  | 5 => "May"
  | 6 => "June"
  | 7 => "July"
  | 8 => "August"
  | 9 => "September"
  | 10 => "October"
  | 11 => "November"
  | 12 => "December"
  | _ => ""

/-- Zero-padded two-digit rendering, per `strftime` directive `%U`. -/
def pad2 (n : Nat) : String :=
  if n < 10 then "0" ++ toString n else toString n

/-- Numeric value of a digit character. -/
def digitVal (c : Char) : Nat := c.toNat - 48

/-- Reads exactly `n` digit characters, accumulating their value
(the `strptime` regex for `%Y` is four mandatory digits). -/
def takeExactDigits : Nat → Nat → List Char → Option (Nat × List Char)
  | 0, acc, cs => some (acc, cs)
  | _ + 1, _, [] => none
  | n + 1, acc, c :: cs =>
      if c.isDigit then takeExactDigits n (acc * 10 + digitVal c) cs else none

/-- Reads a one- or two-digit field with maximal value `hi`, like the
`strptime` regexes for `%m` (`1[0-2]|0[1-9]|[1-9]`) and `%d`
(`3[01]|[12]\d|0[1-9]|[1-9]`): two digits are consumed when they form a
value in `1..hi`, otherwise a single digit in `1..9` is consumed. -/
def takeField (hi : Nat) : List Char → Option (Nat × List Char)
  | c1 :: c2 :: rest =>
      if c1.isDigit && c2.isDigit then
        let v := digitVal c1 * 10 + digitVal c2
        if 1 ≤ v ∧ v ≤ hi then some (v, rest)
        else if 1 ≤ digitVal c1 ∧ digitVal c1 ≤ 9 then some (digitVal c1, c2 :: rest)
        else none
      else if c1.isDigit then
        (if 1 ≤ digitVal c1 ∧ digitVal c1 ≤ 9 then some (digitVal c1, c2 :: rest) else none)
      else none
  | [c1] =>
      if c1.isDigit then
        (if 1 ≤ digitVal c1 ∧ digitVal c1 ≤ 9 then some (digitVal c1, []) else none)
      else none
  | [] => none

/-- Core loop of `datetime.strptime` for the directives `%Y`, `%m`, `%d`
and literal characters: walks the format, consuming the input; any
mismatch, bad directive, or unconverted trailing data yields `none`. -/
def parseLoop : List Char → List Char → Option Nat × Option Nat × Option Nat →
    Option (Option Nat × Option Nat × Option Nat)
  | [], [], acc => some acc
  | [], _ :: _, _ => none
  | '%' :: f :: fmt, cs, (y, m, d) =>
      if f = 'Y' then
        match takeExactDigits 4 0 cs with
        | some (v, rest) => parseLoop fmt rest (some v, m, d)
        | none => none
      else if f = 'm' then
        match takeField 12 cs with
        | some (v, rest) => parseLoop fmt rest (y, some v, d)
        | none => none
      else if f = 'd' then
        match takeField 31 cs with
        | some (v, rest) => parseLoop fmt rest (y, m, some v)
        | none => none
      else if f = '%' then
        match cs with
        | '%' :: rest => parseLoop fmt rest (y, m, d)
        | _ => none
      else none
  | ['%'], _, _ => none
  | f :: fmt, c :: cs, acc => if f = c then parseLoop fmt cs acc else none
  | _ :: _, [], _ => none

/-- Embeds `datetime.strptime(s, fmt)` (line 308): parses `s` against
`fmt`, with Python defaults `1900-01-01` for absent fields, then validates
the date as the `datetime` constructor does.  Failure is the
`DateParseError` of the spec (a `ValueError` in Python). -/
def strptime (s fmt : String) : Except PyError Date :=
  match parseLoop fmt.data s.data (none, none, none) with
  | none => .error .dateParse
  | some (oy, om, od) =>
      let y := oy.getD 1900
      let m := om.getD 1
      let d := od.getD 1
      if 1 ≤ y ∧ 1 ≤ m ∧ m ≤ 12 ∧ 1 ≤ d ∧ d ≤ daysInMonth y m then
        .ok ⟨y, m, d⟩
      else .error .dateParse

/-- Embeds the static method `TempoTFIDF.extract_date` (lines 305-318):
parses `d` with `date_format` (default `%Y-%m-%d`) and renders the period
key `dt.strftime('w%U %Y')`, `dt.strftime('%B %Y')` or `dt.strftime('%Y')`
for the parts `week`, `month`, `year`; any other part raises a
`ValueError` (the spec name is `InvalidGranularity`).  There is no `day`
branch in the source. -/
def extract_date (d part : String) (date_format : String := "%Y-%m-%d") :
    Except PyError String :=
  match strptime d date_format with
  | .error e => .error e
  | .ok dt =>
      if part = "week" then
        .ok ("w" ++ pad2 (weekU dt.year dt.month dt.day) ++ " " ++ toString dt.year)
      else if part = "month" then
        .ok (monthName dt.month ++ " " ++ toString dt.year)
      else if part = "year" then
        .ok (toString dt.year)
      else .error .invalidGranularity

/-- The apostrophe character (code point 39), written via `Char.ofNat`. -/
def apos : Char := Char.ofNat 39

/-- A word character of the regex class `\w`, restricted to ASCII
(letters, digits, underscore); the tokenizer regex is `\w[\w']+`. -/
def isWordChar (c : Char) : Bool :=
  c.isAlphanum || c = '_'

/-- A character of the regex class `[\w']`. -/
def isWordApos (c : Char) : Bool :=
  isWordChar c || c = apos

/-- Maximal runs of `[\w']` characters of a string, in order; characters
outside the class separate runs and are dropped. -/
def wordRuns : List Char → List Char → List (List Char)
  | [], acc => if acc.isEmpty then [] else [acc.reverse]
  | c :: cs, acc =>
      if isWordApos c then wordRuns cs (c :: acc)
      else if acc.isEmpty then wordRuns cs []
      else acc.reverse :: wordRuns cs []

/-- Embeds `re.findall(r"\w[\w']+", document)` (lines 144-145).  A match
is a `\w` character followed by one or more `[\w']` characters, scanned
left to right, greedy and non-overlapping; equivalently, each maximal
`[\w']` run stripped of leading apostrophes contributes its remainder
when at least two characters long. -/
def findall_words (document : String) : List (List Char) :=
  (wordRuns document.data []).filterMap fun run =>
    let t := run.dropWhile (fun c => c = apos)
    if 2 ≤ t.length then some t else none

/-- Whether a token ends in apostrophe-s, as `w.endswith("'s")` (line 147). -/
def endsAposS (w : List Char) : Bool :=
  match w.reverse with
  | 's' :: c :: _ => c = apos
  | _ => false

/-- Whether every character of a nonempty token is a digit, as Python
`str.isdigit` (line 148). -/
def pyIsDigit (w : List Char) : Bool :=
  !w.isEmpty && w.all Char.isDigit

/-- Modelled from the spec: `pattern.en.singularize` (line 149) is an
external linguistic library absent from `src/`; the spec (sections 4.1
step 10 and 9) directs that this pluggable normalization step be treated
as a no-op fallback, so it is the identity here. -/
def singularize : String → String := id

/-- A token: a normalized word, or in collocation mode an adjacent pair
(the tuples produced by `zip(words, words[1:])`, line 151). -/
inductive Token where
  | uni (w : String)
  | bi (w₁ w₂ : String)
deriving DecidableEq

/-- Embeds `TempoTFIDF.process_text` (lines 127-152) faithfully to the
source, including its quirks: the stopword set is built from the
module-global `STOPWORDS` (line 143), never from `self.stopwords`; the
word regex is the hard-coded `word_def` (line 144), never
`self.word_regexp`; stopword filtering happens before possessive
truncation; and possessive truncation is `w[:2]` (line 147), the FIRST
two characters of the token.  `stop` is the module-global stopword
resource and `collocations` is `self.collocations`. -/
def process_text (stop : List String) (collocations : Bool) (document : String) :
    List Token :=
  let stopL : List (List Char) := stop.map fun w => w.data.map Char.toLower
  let words0 := findall_words document
  let words1 := words0.filterMap fun w =>
    let wl := w.map Char.toLower
    if stopL.contains wl then none else some wl
  let words2 := words1.map fun w => if endsAposS w then w.take 2 else w
  let words3 := words2.filter fun w => !pyIsDigit w
  let words4 := words3.map fun w => singularize (String.mk w)
  if collocations then
    (words4.zip words4.tail).map fun p => Token.bi p.1 p.2
  else
    words4.map Token.uni

/-- Inserts one token occurrence into a counting table: the first entry
with this key is incremented, or a fresh entry with count 1 is appended.
This is the insertion behaviour of `collections.Counter`. -/
def bump (tbl : List (Token × Nat)) (t : Token) : List (Token × Nat) :=
  match tbl with
  | [] => [(t, 1)]
  | (u, n) :: rest => if u = t then (u, n + 1) :: rest else (u, n) :: bump rest t

/-- Embeds `TempoTFIDF.calculate_word_frequencies` (lines 154-166),
`dict(Counter(tokens))`: occurrence counts keyed in first-occurrence
order. -/
def calculate_word_frequencies (tokens : List Token) : List (Token × Nat) :=
  tokens.foldl bump []

/-- Looks a token up in a counting table (first matching key), with
default 0 for an absent key.  In the pipeline the key is always present
(an absent key would be a `KeyError`, the unreachable invariant violation
of spec section 7). -/
def lookupD (tbl : List (Token × Nat)) (t : Token) : Nat :=
  match tbl with
  | [] => 0
  | (u, n) :: rest => if u = t then n else lookupD rest t

/-- Embeds the `n_i` accumulation of `score_documents` (lines 117-123):
for every period table and every key in it, the key's entry is
incremented (or created at 1), yielding the number of periods each token
appears in, since period tables have distinct keys. -/
def presence_table (freqs : List (String × List (Token × Nat))) : List (Token × Nat) :=
  freqs.foldl (fun acc kv => kv.2.foldl (fun a p => bump a p.1) acc) []

/-- Modelled from the spec: the module-global `STOPWORDS` (lines 31-33)
is read from a bundled file `stopwords` that is not under `src/`; the
spec (section 9) describes it as a process-wide default English stopword
set loaded at import time, represented here by a standard English
stopword list. -/
def STOPWORDS : List String :=
  ["a", "about", "an", "and", "are", "as", "at", "be", "been", "but", "by",
   "can", "did", "do", "does", "for", "from", "had", "has", "have", "he",
   "her", "his", "i", "if", "in", "is", "it", "its", "just", "not", "of",
   "on", "or", "she", "so", "than", "that", "the", "their", "them", "then",
   "these", "they", "this", "those", "to", "too", "very", "was", "we",
   "were", "what", "which", "who", "will", "with", "you"]

/-- A score table: the `{period: {token: score}}` dict of dicts returned
by `score_documents`, over the float model `K`. -/
abbrev ScoreTable (K : Type) := List (String × List (Token × K))

/-- The attributes of a `TempoTFIDF` object: the four set in `__init__`
(lines 56-61) plus `documents_scores`, which `generate_from_frequencies`
creates by assignment (line 241); `none` models the attribute not yet
existing. -/
structure State (K : Type) where
  stopwords : List String
  max_font_size : Option Int
  word_regexp : String
  collocations : Bool
  documents_scores : Option (ScoreTable K)
deriving DecidableEq

/-- The default `word_regexp` string `\w[\w']+` of `__init__` (line 60). -/
def default_word_regexp : String :=
  String.mk ['\\', 'w', '[', '\\', 'w', apos, ']', '+']

/-- A freshly constructed `TempoTFIDF()` with all defaults: `stopwords`
falls back to the module-global resource, `max_font_size` stays `None`,
and no score attribute exists yet (lines 56-61). -/
def initState (K : Type) : State K :=
  { stopwords := STOPWORDS
    max_font_size := none
    word_regexp := default_word_regexp
    collocations := false
    documents_scores := none }

/-- Evaluates `extract_date` over a list of dates in order, propagating
the first raised error, as the list comprehension on line 96 does. -/
def mapDates (f : String → Except PyError String) : List String → Except PyError (List String)
  | [] => .ok []
  | d :: ds =>
      match f d with
      | .error e => .error e
      | .ok v =>
          match mapDates f ds with
          | .error e => .error e
          | .ok vs => .ok (v :: vs)

/-- Appends a document to its period's group: the first group with this
key is extended, or a fresh group is appended, mirroring the
`aggr_docs` dict accumulation of lines 97-102 (keys in first-occurrence
order, group members in input order). -/
def addToGroup (groups : List (String × List String)) (k v : String) :
    List (String × List String) :=
  match groups with
  | [] => [(k, [v])]
  | (k₀, vs) :: rest =>
      if k₀ = k then (k₀, vs ++ [v]) :: rest else (k₀, vs) :: addToGroup rest k v

/-- Groups `(period, document)` pairs into period groups. -/
def groupJoin (pairs : List (String × String)) : List (String × List String) :=
  pairs.foldl (fun acc p => addToGroup acc p.1 p.2) []

/-- Phase one of `score_documents` (lines 95-106): assigns each date its
period key via `extract_date` (note line 96 passes no date format, so the
default is always used), groups documents by period, joins each group
with single spaces, tokenizes, and counts. -/
def doc_freqs_of (stop : List String) (collocations : Bool)
    (documents dates : List String) (time_unit : String) :
    Except PyError (List (String × List (Token × Nat))) :=
  match mapDates (fun d => extract_date d time_unit) dates with
  | .error e => .error e
  | .ok aggr_dates =>
      let groups := groupJoin (aggr_dates.zip documents)
      let time_docs := groups.map fun g => (g.1, String.intercalate " " g.2)
      .ok (time_docs.map fun g =>
        (g.1, calculate_word_frequencies (process_text stop collocations g.2)))

/-- The raw temporal TF-IDF score of line 227-228:
`math.pow(f, 0.5) * (1 + math.log(N / (collection_frequencies[token] + 1)))`. -/
def rawScore {K : Type} [LinearOrderedField K] (sqrt log : K → K)
    (N : Nat) (coll : List (Token × Nat)) (t : Token) (f : Nat) : K :=
  sqrt (f : K) * (1 + log ((N : K) / ((lookupD coll t : K) + 1)))

/-- Folded maximum of a value list, as `max([v for k, v in d.items()])`
computes it from the first element. -/
def maxVal {K : Type} [LinearOrderedField K] (a : K) (l : List K) : K :=
  l.foldl max a

/-- Normalization of one period's raw scores (lines 235-237): every score
is divided by the period maximum.  An empty table makes `max([])` raise a
`ValueError` (line 208); this is the `emptyMax` outcome. -/
def normalizePeriod {K : Type} [LinearOrderedField K] (scores : List (Token × K)) :
    Except PyError (List (Token × K)) :=
  match scores with
  | [] => .error .emptyMax
  | s :: rest =>
      let m := maxVal s.2 (rest.map Prod.snd)
      .ok ((s :: rest).map fun p => (p.1, p.2 / m))

/-- The per-period loop of `generate_from_frequencies` (lines 222-239)
with `N` fixed: scores and normalizes each period in order, aborting at
the first period whose table is empty. -/
def gffLoop {K : Type} [LinearOrderedField K] (sqrt log : K → K)
    (N : Nat) (coll : List (Token × Nat)) :
    List (String × List (Token × Nat)) → Except PyError (ScoreTable K)
  | [] => .ok []
  | (k, v) :: rest =>
      match normalizePeriod (v.map fun p => (p.1, rawScore sqrt log N coll p.1 p.2)) with
      | .error e => .error e
      | .ok tbl =>
          match gffLoop sqrt log N coll rest with
          | .error e => .error e
          | .ok tbls => .ok ((k, tbl) :: tbls)

/-- Embeds `TempoTFIDF.generate_from_frequencies` (lines 168-242) minus
the `self.documents_scores` assignment, which the caller-facing
`score_documents` performs: `N` is the number of periods and each
period's scores are normalized by the period maximum. -/
def generate_from_frequencies {K : Type} [LinearOrderedField K] (sqrt log : K → K)
    (document_frequencies : List (String × List (Token × Nat)))
    (collection_frequencies : List (Token × Nat)) : Except PyError (ScoreTable K) :=
  gffLoop sqrt log document_frequencies.length collection_frequencies document_frequencies

/-- The computation of `TempoTFIDF.score_documents` (lines 63-125) as a
function of the inputs it actually reads: the module-global stopword
resource `stop`, `self.collocations`, the documents, the dates, and the
time unit.  The `date_format` parameter is accepted but never used,
because line 96 calls `extract_date` without forwarding it. -/
def score_documents_core {K : Type} [LinearOrderedField K] (sqrt log : K → K)
    (stop : List String) (collocations : Bool) (documents dates : List String)
    (date_format time_unit : String) : Except PyError (ScoreTable K) :=
  let _ := date_format
  match doc_freqs_of stop collocations documents dates time_unit with
  | .error e => .error e
  | .ok doc_freqs => generate_from_frequencies sqrt log doc_freqs (presence_table doc_freqs)

/-- Embeds the entry point `TempoTFIDF.score_documents` at the object
level: on success the score table is returned and also stored on the
object as `self.documents_scores` (line 241); on an exception the object
is unchanged, since the assignment on line 241 runs after the scoring
loop completes. -/
def score_documents {K : Type} [LinearOrderedField K] (sqrt log : K → K)
    (stop : List String) (σ : State K) (documents dates : List String)
    (date_format : String := "%Y-%m-%d") (time_unit : String := "month") :
    Except PyError (ScoreTable K × State K) :=
  match score_documents_core sqrt log stop σ.collocations documents dates
      date_format time_unit with
  | .error e => .error e
  | .ok D => .ok (D, { σ with documents_scores := some D })

/-- Python `int()` applied to a float: truncation toward zero. -/
def pyInt {K : Type} [LinearOrderedField K] [FloorRing K] (x : K) : Int :=
  if 0 ≤ x then ⌊x⌋ else ⌈x⌉

/-- Stable descending insertion by score: the new pair goes after all
existing pairs of greater-or-equal score.  Folding this over a list is
`sorted(d.items(), key=lambda x: x[1], reverse=True)` (lines 282-283,
292): descending, with ties in original order (Python sorts stably). -/
def insertDesc {K : Type} [LinearOrderedField K] (p : Token × K) :
    List (Token × K) → List (Token × K)
  | [] => [p]
  | q :: rest => if q.2 < p.2 then p :: q :: rest else q :: insertDesc p rest

/-- Stable sort of a score table by descending score. -/
def sort_dict_value_desc {K : Type} [LinearOrderedField K] (l : List (Token × K)) :
    List (Token × K) :=
  l.foldl (fun acc p => insertDesc p acc) []

/-- The cascade of `generate_font_sizes` (lines 294-300): the running
font size is clamped up to 1 before use, multiplied by the ratio of this
score to the previous one, truncated by `int()`, and decremented. -/
def fontSizeLoop {K : Type} [LinearOrderedField K] [FloorRing K]
    (last_freq : K) (font_size : Int) : List (Token × K) → List (Token × Int)
  | [] => []
  | (word, score) :: rest =>
      let base : Int := if font_size < 1 then 1 else font_size
      let fs : Int := pyInt ((base : K) * (score / last_freq)) - 1
      (word, fs) :: fontSizeLoop score fs rest

/-- Embeds `TempoTFIDF.generate_font_sizes` (lines 274-303).  The method
receives `self` (here `σ`) but reads none of its attributes: line 288
hard-codes a local `max_font_size = 100`, so `self.max_font_size` is
ignored.  Each period is sorted by descending score and run through the
cascade starting from `last_freq = 1.0`, `font_size = 100`. -/
def generate_font_sizes {K : Type} [LinearOrderedField K] [FloorRing K]
    (σ : State K) (document_scores : ScoreTable K) : List (String × List (Token × Int)) :=
  let _ := σ
  document_scores.map fun p => (p.1, fontSizeLoop 1 100 (sort_dict_value_desc p.2))

/-- Decidable equality of `Except` results, for evaluating pipeline
outcomes on concrete inputs. -/
instance instDecEqExcept {ε α : Type _} [DecidableEq ε] [DecidableEq α] :
    DecidableEq (Except ε α) := fun
  | .error e, .error f => decidable_of_iff (e = f) (by simp)
  | .error _, .ok _ => isFalse (by simp)
  | .ok _, .error _ => isFalse (by simp)
  | .ok a, .ok b => decidable_of_iff (a = b) (by simp)

/-- The document string `cat's`. -/
def catsDoc : String := String.mk ['c', 'a', 't', apos, 's']

/-- The document string `horse's`. -/
def horsesDoc : String := String.mk ['h', 'o', 'r', 's', 'e', apos, 's']

/-- The document string `an's`. -/
def ansDoc : String := String.mk ['a', 'n', apos, 's']

/-- The date format string `%d/%m/%Y`. -/
def fmtDMY : String := "%d/%m/%Y"

/-- Claim C1: the claim states that a token ending in apostrophe-s is
truncated to the prefix before the apostrophe (`w[:-2]`).  The code
(line 147) instead keeps `w[:2]`, the FIRST two characters: `cat's`
tokenizes to `ca` (not `cat`) and `horse's` to `ho` (not `horse`).
This theorem evaluates the tokenizer at the failing inputs. -/
theorem possessive_truncation_takes_first_two :
    process_text STOPWORDS false catsDoc = [Token.uni "ca"] ∧
    process_text STOPWORDS false horsesDoc = [Token.uni "ho"] := by
  decide

/-- Claim C2 counterexample: a document consisting only of a URL does not
tokenize to the empty sequence, contradicting the claim that URL spans
are stripped before token splitting. -/
theorem url_not_stripped_counterexample :
    process_text STOPWORDS false "http://example.com" ≠ [] := by
  decide

/-- Claim C2 (amended): `process_text` performs no stripping of URLs,
handles, phone patterns or email addresses — the word-pattern split is
applied directly to the raw document, so a URL-only document yields the
word-character runs of the URL, an email-only document those of the
email, and a handle yields its name. -/
theorem no_span_stripping :
    process_text STOPWORDS false "http://example.com" =
      [Token.uni "http", Token.uni "example", Token.uni "com"] ∧
    process_text STOPWORDS false "john@example.com" =
      [Token.uni "john", Token.uni "example", Token.uni "com"] ∧
    process_text STOPWORDS false "@bob" = [Token.uni "bob"] := by
  decide

/-- Claim C3: the claim states that scoring uses the caller-supplied date
format.  The code (line 96) calls `extract_date` without forwarding
`date_format`, so the default `%Y-%m-%d` is always used: scoring
documents dated `15/01/2018` with format `%d/%m/%Y` raises the date
parse error even though `strptime` accepts that date under the supplied
format. -/
theorem date_format_argument_ignored :
    score_documents (K := ℚ) id id STOPWORDS (initState ℚ)
      ["cat"] ["15/01/2018"] fmtDMY "month" = .error .dateParse ∧
    strptime "15/01/2018" fmtDMY = .ok ⟨2018, 1, 15⟩ ∧
    extract_date "15/01/2018" "month" = .error .dateParse := by
  decide

/-- Claim C4 counterexample: `extract_date` raises the invalid
granularity error on `day`, although the claim includes `day` in the set
of accepted granularities. -/
theorem day_granularity_rejected :
    extract_date "2018-01-15" "day" = .error .invalidGranularity := by
  decide

/-- Claim C4 (amended): for a date string that parses under the supplied
format, `extract_date` succeeds exactly on the granularities `week`,
`month` and `year`, and raises the invalid granularity error on every
other value — including `day`, which the source does not support (its
docstring and error message name only week, month, and year). -/
theorem granularity_enum_is_week_month_year (d fmt part : String) (dt : Date)
    (h : strptime d fmt = .ok dt) :
    ((part = "week" ∨ part = "month" ∨ part = "year") →
      (extract_date d part fmt).isOk = true) ∧
    (part ≠ "week" → part ≠ "month" → part ≠ "year" →
      extract_date d part fmt = .error .invalidGranularity) := by
  unfold extract_date
  rw [h]
  constructor
  · rintro (h1 | h1 | h1) <;> simp [h1, Except.isOk, Except.toBool]
  · intro h1 h2 h3
    simp [h1, h2, h3]

/-- Claim C4 witness: at the concrete date `2018-01-15` under the default
format, `fortnight` (and likewise `day`) is rejected while `week` is
accepted. -/
theorem granularity_enum_witness :
    extract_date "2018-01-15" "fortnight" = .error .invalidGranularity ∧
    (extract_date "2018-01-15" "week").isOk = true :=
  ⟨(granularity_enum_is_week_month_year "2018-01-15" "%Y-%m-%d" "fortnight"
      ⟨2018, 1, 15⟩ (by decide)).2 (by decide) (by decide) (by decide),
   (granularity_enum_is_week_month_year "2018-01-15" "%Y-%m-%d" "week"
      ⟨2018, 1, 15⟩ (by decide)).1 (Or.inl rfl)⟩

/-- Claim C5 counterexample: two documents in different months, the first
of which tokenizes to nothing, make the whole scoring call abort with the
empty-max error — no per-period partial failure entry is produced and the
valid second period is not returned, contradicting the claim. -/
theorem empty_period_aborts_counterexample :
    score_documents (K := ℚ) id id STOPWORDS (initState ℚ)
      ["", "cat dog"] ["2018-01-01", "2018-02-01"] "%Y-%m-%d" "month" =
      .error .emptyMax := by
  decide

/-- Any period list containing an empty frequency table drives the
scoring loop into the empty-max error. -/
theorem gffLoop_error_of_mem_empty {K : Type} [LinearOrderedField K]
    (sqrt log : K → K) (N : Nat) (coll : List (Token × Nat)) (p : String) :
    ∀ l : List (String × List (Token × Nat)), (p, ([] : List (Token × Nat))) ∈ l →
      gffLoop (K := K) sqrt log N coll l = .error .emptyMax := by
  intro l
  induction l with
  | nil => intro hmem; cases hmem
  | cons kv rest ih =>
      intro hmem
      cases hmem with
      | head => simp [gffLoop, normalizePeriod]
      | tail _ hmem =>
          match kv with
          | (k, []) => simp [gffLoop, normalizePeriod]
          | (k, q :: v) =>
              simp only [gffLoop, normalizePeriod, List.map_cons]
              rw [ih hmem]

/-- Claim C5 (amended): when some period's frequency table is empty at
normalization time, the entire `score_documents` call aborts with the
uncaught empty-max `ValueError`; no `EmptyPeriodScoreError` partial
failure is signalled, and the scores of the other periods are not
returned. -/
theorem empty_period_aborts_whole_call {K : Type} [LinearOrderedField K]
    (sqrt log : K → K) (stop : List String) (σ : State K)
    (documents dates : List String) (fmt unit : String)
    (F : List (String × List (Token × Nat)))
    (hF : doc_freqs_of stop σ.collocations documents dates unit = .ok F)
    (p : String) (hp : (p, ([] : List (Token × Nat))) ∈ F) :
    score_documents sqrt log stop σ documents dates fmt unit = .error .emptyMax := by
  unfold score_documents score_documents_core generate_from_frequencies
  rw [hF]
  simp [gffLoop_error_of_mem_empty sqrt log F.length (presence_table F) p F hp]

/-- Claim C5 witness: the general abort theorem applied at a concrete
input whose first period tokenizes to nothing. -/
theorem empty_period_aborts_whole_call_witness :
    score_documents (K := ℚ) id id STOPWORDS (initState ℚ)
      ["", "bird"] ["2018-01-01", "2018-02-01"] "%Y-%m-%d" "month" =
      .error .emptyMax :=
  empty_period_aborts_whole_call id id STOPWORDS (initState ℚ)
    ["", "bird"] ["2018-01-01", "2018-02-01"] "%Y-%m-%d" "month"
    [("January 2018", []), ("February 2018", [(Token.uni "bird", 1)])]
    (by decide) "January 2018" (by decide)

/-- Claim C6: the claim states that for a period whose top score is 1.0
the first emitted font size is the configured `maxFontSize - 1` for any
caller-overridden value.  The code hard-codes `max_font_size = 100`
inside `generate_font_sizes` (line 288) and never reads
`self.max_font_size`, so the first font size is 99 regardless of the
configured value — here both under `max_font_size = 50` (the claim would
require 49) and under `max_font_size = 100`. -/
theorem max_font_size_config_ignored :
    generate_font_sizes (K := ℚ) { initState ℚ with max_font_size := some 50 }
      [("January 2018", [(Token.uni "cat", 1)])] =
      [("January 2018", [(Token.uni "cat", 99)])] ∧
    generate_font_sizes (K := ℚ) { initState ℚ with max_font_size := some 100 }
      [("January 2018", [(Token.uni "cat", 1)])] =
      [("January 2018", [(Token.uni "cat", 99)])] := by
  constructor <;>
    norm_num [generate_font_sizes, fontSizeLoop, sort_dict_value_desc, insertDesc, pyInt]

/-- Claim C7: the claim states that no output token equals a member of
the active stopword set.  The code filters stopwords BEFORE possessive
truncation (lines 146-147), so `an's` is kept (it is not a stopword) and
then truncated to `an`, which IS in the stopword set actually used; and
the set used is the module-global `STOPWORDS` (line 143), so a
caller-configured set such as `{zebra}` is ignored entirely and `zebra`
survives tokenization. -/
theorem stopword_reintroduced_by_truncation :
    process_text STOPWORDS false ansDoc = [Token.uni "an"] ∧
    "an" ∈ STOPWORDS ∧
    process_text STOPWORDS
      ({ initState ℚ with stopwords := ["zebra"] } : State ℚ).collocations
      "zebra cat" = [Token.uni "zebra", Token.uni "cat"] ∧
    "zebra" ∈ ({ initState ℚ with stopwords := ["zebra"] } : State ℚ).stopwords := by
  decide

/-- Unfolds a successful `score_documents` call: when the frequency phase
yields `F` and the scoring phase yields `D`, the call returns `D`
together with the object state carrying `documents_scores := some D`. -/
theorem score_documents_eval {K : Type} [LinearOrderedField K]
    (sqrt log : K → K) (stop : List String) (σ : State K)
    (documents dates : List String) (fmt unit : String)
    (F : List (String × List (Token × Nat))) (D : ScoreTable K)
    (hF : doc_freqs_of stop σ.collocations documents dates unit = .ok F)
    (hD : generate_from_frequencies sqrt log F (presence_table F) = .ok D) :
    score_documents sqrt log stop σ documents dates fmt unit =
      .ok (D, { σ with documents_scores := some D }) := by
  unfold score_documents score_documents_core
  rw [hF]
  simp [hD]

/-- Claim C8 counterexample: a successful `score_documents` call mutates
the scorer object — `documents_scores` was absent (`none`) before the
call and holds the returned table afterwards, so not every attribute is
as it was before. -/
theorem score_documents_mutates_state :
    score_documents (K := ℚ) id id STOPWORDS (initState ℚ)
      ["cat"] ["2018-01-01"] "%Y-%m-%d" "month" =
      .ok ([("January 2018", [(Token.uni "cat", 1)])],
        { initState ℚ with
            documents_scores := some [("January 2018", [(Token.uni "cat", 1)])] }) ∧
    (initState ℚ).documents_scores = none := by
  refine ⟨score_documents_eval id id STOPWORDS (initState ℚ)
    ["cat"] ["2018-01-01"] "%Y-%m-%d" "month"
    [("January 2018", [(Token.uni "cat", 1)])]
    [("January 2018", [(Token.uni "cat", 1)])] (by decide) ?_, rfl⟩
  norm_num [generate_from_frequencies, gffLoop, normalizePeriod, rawScore,
    maxVal, presence_table, bump, lookupD]

/-- Claim C8 (amended): `score_documents` leaves the four configuration
attributes (`stopwords`, `max_font_size`, `word_regexp`, `collocations`)
unchanged, but it does leave shared mutable state behind: on success
`generate_from_frequencies` stores the returned score table in
`self.documents_scores` (line 241). -/
theorem score_documents_state_effect {K : Type} [LinearOrderedField K]
    (sqrt log : K → K) (stop : List String) (σ : State K)
    (documents dates : List String) (fmt unit : String)
    (D : ScoreTable K) (σ' : State K)
    (h : score_documents sqrt log stop σ documents dates fmt unit = .ok (D, σ')) :
    σ'.stopwords = σ.stopwords ∧ σ'.max_font_size = σ.max_font_size ∧
    σ'.word_regexp = σ.word_regexp ∧ σ'.collocations = σ.collocations ∧
    σ'.documents_scores = some D := by
  unfold score_documents at h
  revert h
  cases score_documents_core sqrt log stop σ.collocations documents dates fmt unit with
  | error e => intro h; cases h
  | ok D₀ =>
      intro h
      injection h with h
      injection h with h1 h2
      subst h1
      subst h2
      simp

/-- Claim C8 witness: the state-effect theorem applied to a concrete
successful call. -/
theorem score_documents_state_effect_witness :
    ({ initState ℚ with
        documents_scores := some [("January 2018", [(Token.uni "dog", 1)])] } :
      State ℚ).stopwords = (initState ℚ).stopwords ∧
    ({ initState ℚ with
        documents_scores := some [("January 2018", [(Token.uni "dog", 1)])] } :
      State ℚ).max_font_size = (initState ℚ).max_font_size ∧
    ({ initState ℚ with
        documents_scores := some [("January 2018", [(Token.uni "dog", 1)])] } :
      State ℚ).word_regexp = (initState ℚ).word_regexp ∧
    ({ initState ℚ with
        documents_scores := some [("January 2018", [(Token.uni "dog", 1)])] } :
      State ℚ).collocations = (initState ℚ).collocations ∧
    ({ initState ℚ with
        documents_scores := some [("January 2018", [(Token.uni "dog", 1)])] } :
      State ℚ).documents_scores = some [("January 2018", [(Token.uni "dog", 1)])] :=
  score_documents_state_effect id id STOPWORDS (initState ℚ)
    ["dog"] ["2018-01-01"] "%Y-%m-%d" "month"
    [("January 2018", [(Token.uni "dog", 1)])]
    { initState ℚ with
        documents_scores := some [("January 2018", [(Token.uni "dog", 1)])] }
    (score_documents_eval id id STOPWORDS (initState ℚ)
      ["dog"] ["2018-01-01"] "%Y-%m-%d" "month"
      [("January 2018", [(Token.uni "dog", 1)])]
      [("January 2018", [(Token.uni "dog", 1)])] (by decide)
      (by norm_num [generate_from_frequencies, gffLoop, normalizePeriod, rawScore,
        maxVal, presence_table, bump, lookupD]))

/-- Counts in a table stay at least 1 under `bump`. -/
theorem bump_pos (tbl : List (Token × Nat)) (t : Token)
    (h : ∀ q ∈ tbl, 1 ≤ q.2) : ∀ q ∈ bump tbl t, 1 ≤ q.2 := by
  induction tbl with
  | nil => intro q hq; simp [bump] at hq; simp [hq]
  | cons p rest ih =>
      intro q hq
      match p with
      | (u, n) =>
          by_cases hu : u = t
          · simp [bump, hu] at hq
            rcases hq with hq | hq
            · simp [hq]
            · exact h q (List.mem_cons_of_mem _ hq)
          · simp [bump, hu] at hq
            rcases hq with hq | hq
            · exact h q (by simp [hq])
            · exact ih (fun r hr => h r (List.mem_cons_of_mem _ hr)) q hq

/-- Every count in a `Counter`-built frequency table is at least 1. -/
theorem calculate_word_frequencies_pos (tokens : List Token) :
    ∀ q ∈ calculate_word_frequencies tokens, 1 ≤ q.2 := by
  have aux : ∀ (ts : List Token) (acc : List (Token × Nat)),
      (∀ q ∈ acc, 1 ≤ q.2) → ∀ q ∈ ts.foldl bump acc, 1 ≤ q.2 := by
    intro ts
    induction ts with
    | nil => intro acc h q hq; exact h q hq
    | cons t rest ih =>
        intro acc h q hq
        exact ih (bump acc t) (bump_pos acc t h) q hq
  exact aux tokens [] (by simp)

/-- Looking up after a `bump` gives the old value, incremented exactly on
the bumped key. -/
theorem lookupD_bump (tbl : List (Token × Nat)) (u t : Token) :
    lookupD (bump tbl u) t =
      if u = t then lookupD tbl t + 1 else lookupD tbl t := by
  induction tbl with
  | nil =>
      by_cases h : u = t <;> simp [bump, lookupD, h]
  | cons p rest ih =>
      match p with
      | (a, n) =>
          by_cases ha : a = u
          · subst ha
            by_cases ht : a = t <;> simp [bump, lookupD, ht]
          · by_cases ht : a = t
            · subst ht
              have : ¬ u = a := fun hh => ha hh.symm
              simp [bump, lookupD, ha, this]
            · simp [bump, lookupD, ha, ht, ih]

/-- Keys reachable by `bump`: the bumped key is appended when absent. -/
theorem keys_bump (tbl : List (Token × Nat)) (t : Token) :
    (bump tbl t).map Prod.fst =
      if t ∈ tbl.map Prod.fst then tbl.map Prod.fst
      else tbl.map Prod.fst ++ [t] := by
  induction tbl with
  | nil => simp [bump]
  | cons p rest ih =>
      match p with
      | (a, n) =>
          by_cases ha : a = t
          · simp [bump, ha]
          · have hta : ¬ t = a := fun hh => ha hh.symm
            simp [bump, ha, hta, ih]
            by_cases hm : t ∈ rest.map Prod.fst <;> simp [hm, hta]

/-- Bumping preserves key distinctness. -/
theorem nodup_keys_bump (tbl : List (Token × Nat)) (t : Token)
    (h : (tbl.map Prod.fst).Nodup) : ((bump tbl t).map Prod.fst).Nodup := by
  rw [keys_bump]
  by_cases hm : t ∈ tbl.map Prod.fst
  · simpa [hm] using h
  · simp only [hm, if_false]
    rw [List.nodup_append]
    refine ⟨h, List.nodup_singleton t, ?_⟩
    intro x hx hxt
    rw [List.mem_singleton] at hxt
    subst hxt
    exact hm hx

/-- Frequency tables built by `calculate_word_frequencies` have distinct
keys, as Python dicts do. -/
theorem calculate_word_frequencies_nodup (tokens : List Token) :
    ((calculate_word_frequencies tokens).map Prod.fst).Nodup := by
  have aux : ∀ (ts : List Token) (acc : List (Token × Nat)),
      (acc.map Prod.fst).Nodup → ((ts.foldl bump acc).map Prod.fst).Nodup := by
    intro ts
    induction ts with
    | nil => intro acc h; exact h
    | cons t rest ih => intro acc h; exact ih (bump acc t) (nodup_keys_bump acc t h)
  exact aux tokens [] (by simp)

/-- Folding a whole table into the presence accumulator adds the key
multiplicity of that table. -/
theorem lookupD_foldl_bump (v : List (Token × Nat)) (t : Token) :
    ∀ acc : List (Token × Nat),
      lookupD (v.foldl (fun a p => bump a p.1) acc) t =
        lookupD acc t + (v.map Prod.fst).count t := by
  induction v with
  | nil => intro acc; simp
  | cons p rest ih =>
      intro acc
      rw [List.foldl_cons, ih (bump acc p.1), lookupD_bump]
      by_cases h : p.1 = t
      · simp [h, List.count_cons]
        omega
      · have : ¬ t = p.1 := fun hh => h hh.symm
        simp [h, List.count_cons, this]

/-- The presence table records, for each token, the total key
multiplicity over all period tables. -/
theorem lookupD_presence_table (F : List (String × List (Token × Nat))) (t : Token) :
    lookupD (presence_table F) t =
      (F.map fun kv => (kv.2.map Prod.fst).count t).sum := by
  have aux : ∀ (l : List (String × List (Token × Nat))) (acc : List (Token × Nat)),
      lookupD (l.foldl (fun acc kv => kv.2.foldl (fun a p => bump a p.1) acc) acc) t =
        lookupD acc t + (l.map fun kv => (kv.2.map Prod.fst).count t).sum := by
    intro l
    induction l with
    | nil => intro acc; simp
    | cons kv rest ih =>
        intro acc
        rw [List.foldl_cons, ih, lookupD_foldl_bump]
        simp [Nat.add_assoc]
  have := aux F []
  simpa [presence_table, lookupD] using this

/-- A token present in some period's table has presence count at least 1. -/
theorem presence_table_lower (F : List (String × List (Token × Nat)))
    (kv : String × List (Token × Nat)) (hkv : kv ∈ F) (t : Token)
    (ht : t ∈ kv.2.map Prod.fst) : 1 ≤ lookupD (presence_table F) t := by
  rw [lookupD_presence_table]
  have hc : 0 < (kv.2.map Prod.fst).count t := List.count_pos_iff.mpr ht
  have hmem : (kv.2.map Prod.fst).count t ∈ F.map fun kv => (kv.2.map Prod.fst).count t :=
    List.mem_map_of_mem _ hkv
  have := List.single_le_sum
    (l := F.map fun kv => (kv.2.map Prod.fst).count t) (fun a _ => Nat.zero_le a) _ hmem
  omega

/-- When every period table has distinct keys, no presence count exceeds
the number of periods. -/
theorem presence_table_upper (F : List (String × List (Token × Nat)))
    (hnd : ∀ kv ∈ F, (kv.2.map Prod.fst).Nodup) (t : Token) :
    lookupD (presence_table F) t ≤ F.length := by
  rw [lookupD_presence_table]
  have hle : ∀ x ∈ F.map fun kv => (kv.2.map Prod.fst).count t, x ≤ 1 := by
    intro x hx
    rcases List.mem_map.mp hx with ⟨kv, hkv, rfl⟩
    exact List.nodup_iff_count_le_one.mp (hnd kv hkv) t
  have := List.sum_le_card_nsmul (F.map fun kv => (kv.2.map Prod.fst).count t) 1 hle
  simpa using this

/-- The folded maximum dominates its seed. -/
theorem maxVal_init_le {K : Type} [LinearOrderedField K] (l : List K) :
    ∀ a : K, a ≤ maxVal a l := by
  induction l with
  | nil => intro a; simp [maxVal]
  | cons x rest ih =>
      intro a
      have h1 : a ≤ max a x := le_max_left a x
      have h2 : max a x ≤ maxVal (max a x) rest := ih (max a x)
      calc a ≤ max a x := h1
        _ ≤ maxVal (max a x) rest := h2
        _ = maxVal a (x :: rest) := rfl

/-- The folded maximum dominates every list element. -/
theorem maxVal_mem_le {K : Type} [LinearOrderedField K] (l : List K) :
    ∀ (a x : K), x ∈ l → x ≤ maxVal a l := by
  induction l with
  | nil => intro a x hx; cases hx
  | cons y rest ih =>
      intro a x hx
      rcases List.mem_cons.mp hx with hx | hx
      · subst hx
        calc x ≤ max a x := le_max_right a x
          _ ≤ maxVal (max a x) rest := maxVal_init_le rest (max a x)
          _ = maxVal a (x :: rest) := rfl
      · exact ih (max a y) x hx

/-- The folded maximum is the seed or one of the elements. -/
theorem maxVal_eq_or_mem {K : Type} [LinearOrderedField K] (l : List K) :
    ∀ a : K, maxVal a l = a ∨ maxVal a l ∈ l := by
  induction l with
  | nil => intro a; left; rfl
  | cons x rest ih =>
      intro a
      have : maxVal a (x :: rest) = maxVal (max a x) rest := rfl
      rcases ih (max a x) with h | h
      · rw [this, h]
        rcases max_choice a x with hm | hm
        · left; exact hm
        · right; rw [hm]; exact List.mem_cons_self x rest
      · right
        rw [this]
        exact List.mem_cons_of_mem x h

/-- Normalization of a nonempty table of positive scores succeeds, puts
every score in the half-open unit interval, and sends some entry to
exactly 1. -/
theorem normalizePeriod_spec {K : Type} [LinearOrderedField K]
    (scores : List (Token × K)) (hne : scores ≠ [])
    (hpos : ∀ q ∈ scores, 0 < q.2) :
    ∃ T, normalizePeriod scores = .ok T ∧
      (∀ q ∈ T, 0 < q.2 ∧ q.2 ≤ 1) ∧ ∃ q ∈ T, q.2 = 1 := by
  match scores with
  | [] => exact absurd rfl hne
  | s :: rest =>
      have hEq : normalizePeriod (s :: rest) =
          .ok ((s :: rest).map fun p =>
            (p.1, p.2 / maxVal s.2 (rest.map Prod.snd))) := rfl
      set m := maxVal s.2 (rest.map Prod.snd) with hm
      have hs2 : (0 : K) < s.2 := hpos s (List.mem_cons_self s rest)
      have hsmax : s.2 ≤ m := maxVal_init_le (rest.map Prod.snd) s.2
      have hmpos : 0 < m := lt_of_lt_of_le hs2 hsmax
      have hall : ∀ q ∈ s :: rest, q.2 ≤ m := by
        intro q hq
        rcases List.mem_cons.mp hq with hq | hq
        · subst hq; exact hsmax
        · exact maxVal_mem_le (rest.map Prod.snd) s.2 q.2 (List.mem_map_of_mem Prod.snd hq)
      refine ⟨_, hEq, ?_, ?_⟩
      · intro q hq
        rcases List.mem_map.mp hq with ⟨p, hp, rfl⟩
        exact ⟨div_pos (hpos p hp) hmpos, (div_le_one hmpos).mpr (hall p hp)⟩
      · rcases maxVal_eq_or_mem (rest.map Prod.snd) s.2 with h | h
        · refine ⟨(s.1, s.2 / m), List.mem_map_of_mem _ (List.mem_cons_self s rest), ?_⟩
          show s.2 / m = 1
          have hms : m = s.2 := by rw [hm]; exact h
          rw [hms]
          exact div_self (ne_of_gt hs2)
        · rcases List.mem_map.mp h with ⟨p, hp, hpm⟩
          refine ⟨(p.1, p.2 / m), List.mem_map_of_mem _ (List.mem_cons_of_mem s hp), ?_⟩
          show p.2 / m = 1
          have hpm₂ : p.2 = m := by rw [hm]; exact hpm
          rw [hpm₂]
          exact div_self (ne_of_gt hmpos)

/-- The scoring loop succeeds on nonempty tables of positive raw scores,
and every period of its output is normalized: scores in the half-open
unit interval with the maximum attained at exactly 1. -/
theorem gffLoop_spec {K : Type} [LinearOrderedField K] (sqrt log : K → K)
    (N : Nat) (coll : List (Token × Nat)) :
    ∀ l : List (String × List (Token × Nat)),
      (∀ kv ∈ l, kv.2 ≠ []) →
      (∀ kv ∈ l, ∀ q ∈ kv.2, 0 < rawScore sqrt log N coll q.1 q.2) →
      ∃ D, gffLoop (K := K) sqrt log N coll l = .ok D ∧
        ∀ pT ∈ D, (∀ q ∈ pT.2, 0 < q.2 ∧ q.2 ≤ 1) ∧ ∃ q ∈ pT.2, q.2 = 1 := by
  intro l
  induction l with
  | nil => intro _ _; exact ⟨[], rfl, by simp⟩
  | cons kv rest ih =>
      intro hne hpos
      have hne₀ : (kv.2.map fun p => (p.1, rawScore sqrt log N coll p.1 p.2)) ≠ [] := by
        intro h
        exact hne kv (List.mem_cons_self kv rest) (List.map_eq_nil_iff.mp h)
      have hpos₀ : ∀ q ∈ kv.2.map fun p => (p.1, rawScore sqrt log N coll p.1 p.2), 0 < q.2 := by
        intro q hq
        rcases List.mem_map.mp hq with ⟨p, hp, rfl⟩
        exact hpos kv (List.mem_cons_self kv rest) p hp
      rcases normalizePeriod_spec _ hne₀ hpos₀ with ⟨T, hT, hTprops, hTmax⟩
      rcases ih (fun kv' h => hne kv' (List.mem_cons_of_mem kv h))
        (fun kv' h => hpos kv' (List.mem_cons_of_mem kv h)) with ⟨D, hD, hDprops⟩
      refine ⟨(kv.1, T) :: D, ?_, ?_⟩
      · simp only [gffLoop]
        rw [hT, hD]
      · intro pT hpT
        rcases List.mem_cons.mp hpT with hpT | hpT
        · subst hpT; exact ⟨hTprops, hTmax⟩
        · exact hDprops pT hpT

/-- The raw score `sqrt(f) * (1 + ln(N / (presence + 1)))` is strictly
positive whenever the count is at least 1 and the presence count lies
between 1 and the number of periods: then `N/(presence+1) ≥ N/(N+1) ≥ 1/2
> exp(-1)`, so the logarithm exceeds -1. -/
theorem rawScore_pos (N : Nat) (coll : List (Token × Nat)) (t : Token) (f : Nat)
    (hf : 1 ≤ f) (hp1 : 1 ≤ lookupD coll t) (hp2 : lookupD coll t ≤ N) :
    0 < rawScore Real.sqrt Real.log N coll t f := by
  unfold rawScore
  have hfR : (0 : ℝ) < (f : ℝ) := by exact_mod_cast Nat.lt_of_lt_of_le Nat.zero_lt_one hf
  have hsq : 0 < Real.sqrt (f : ℝ) := Real.sqrt_pos.mpr hfR
  have hN : 1 ≤ N := le_trans hp1 hp2
  have hNR : (1 : ℝ) ≤ (N : ℝ) := by exact_mod_cast hN
  have hpR : ((lookupD coll t : ℕ) : ℝ) ≤ (N : ℝ) := by exact_mod_cast hp2
  have hden : (0 : ℝ) < ((lookupD coll t : ℕ) : ℝ) + 1 := by positivity
  have hx : (0 : ℝ) < (N : ℝ) / (((lookupD coll t : ℕ) : ℝ) + 1) :=
    div_pos (by linarith) hden
  have hhalf : (2 : ℝ)⁻¹ ≤ (N : ℝ) / (((lookupD coll t : ℕ) : ℝ) + 1) := by
    rw [le_div_iff₀ hden]
    linarith
  have hexp : Real.exp (-1) < (N : ℝ) / (((lookupD coll t : ℕ) : ℝ) + 1) := by
    have h2 : (2 : ℝ) < Real.exp 1 := by
      have := Real.exp_one_gt_d9
      linarith
    have hinv : (Real.exp 1)⁻¹ < (2 : ℝ)⁻¹ := by
      exact inv_strictAnti₀ (by norm_num) h2
    rw [Real.exp_neg]
    exact lt_of_lt_of_le hinv hhalf
  have hlog : (-1 : ℝ) < Real.log ((N : ℝ) / (((lookupD coll t : ℕ) : ℝ) + 1)) :=
    (Real.lt_log_iff_exp_lt hx).mpr hexp
  have hidf : (0 : ℝ) < 1 + Real.log ((N : ℝ) / (((lookupD coll t : ℕ) : ℝ) + 1)) := by
    linarith
  exact mul_pos hsq hidf

/-- Claim C9: whenever the frequency phase of `score_documents` succeeds
and every period's frequency table is nonempty (exactly the condition
under which the scoring call returns at all), the call succeeds and, for
every period of the returned table, every normalized score lies in the
half-open interval (0, 1] — strictly positive because
`idf = 1 + ln(N/(presence+1))` is strictly positive for
`1 ≤ presence ≤ N` — and the maximum score of the period is attained at
exactly 1. -/
theorem scores_in_unit_interval_max_one (σ : State ℝ) (stop : List String)
    (docs dates : List String) (fmt unit : String)
    (F : List (String × List (Token × Nat)))
    (hF : doc_freqs_of stop σ.collocations docs dates unit = .ok F)
    (hne : ∀ kv ∈ F, kv.2 ≠ []) :
    ∃ D σ',
      score_documents Real.sqrt Real.log stop σ docs dates fmt unit = .ok (D, σ') ∧
      ∀ pT ∈ D, (∀ q ∈ pT.2, 0 < q.2 ∧ q.2 ≤ 1) ∧ ∃ q ∈ pT.2, q.2 = 1 := by
  have hshape : ∀ kv ∈ F, ∃ tokens, kv.2 = calculate_word_frequencies tokens := by
    unfold doc_freqs_of at hF
    cases hmap : mapDates (fun d => extract_date d unit) dates with
    | error e => rw [hmap] at hF; cases hF
    | ok ad =>
        rw [hmap] at hF
        simp only [Except.ok.injEq] at hF
        subst hF
        intro kv hkv
        rcases List.mem_map.mp hkv with ⟨g, _, rfl⟩
        exact ⟨process_text stop σ.collocations g.2, rfl⟩
  have hcnt : ∀ kv ∈ F, ∀ q ∈ kv.2, 1 ≤ q.2 := by
    intro kv hkv q hq
    rcases hshape kv hkv with ⟨tokens, hkv2⟩
    rw [hkv2] at hq
    exact calculate_word_frequencies_pos tokens q hq
  have hnd : ∀ kv ∈ F, (kv.2.map Prod.fst).Nodup := by
    intro kv hkv
    rcases hshape kv hkv with ⟨tokens, hkv2⟩
    rw [hkv2]
    exact calculate_word_frequencies_nodup tokens
  have hposraw : ∀ kv ∈ F, ∀ q ∈ kv.2,
      0 < rawScore Real.sqrt Real.log F.length (presence_table F) q.1 q.2 := by
    intro kv hkv q hq
    exact rawScore_pos F.length (presence_table F) q.1 q.2 (hcnt kv hkv q hq)
      (presence_table_lower F kv hkv q.1 (List.mem_map_of_mem Prod.fst hq))
      (presence_table_upper F hnd q.1)
  rcases gffLoop_spec Real.sqrt Real.log F.length (presence_table F) F hne hposraw
    with ⟨D, hD, hprops⟩
  exact ⟨D, { σ with documents_scores := some D },
    score_documents_eval Real.sqrt Real.log stop σ docs dates fmt unit F D hF hD,
    hprops⟩

/-- Claim C9 witness: the normalization theorem applied to the concrete
two-document corpus of the spec's end-to-end scenario, which aggregates
into the single period `January 2018` with counts cat 2, dog 2, bird 1. -/
theorem scores_in_unit_interval_max_one_witness :
    ∃ D σ',
      score_documents Real.sqrt Real.log STOPWORDS (initState ℝ)
        ["cat dog cat", "dog bird"] ["2018-01-01", "2018-01-02"]
        "%Y-%m-%d" "month" = .ok (D, σ') ∧
      ∀ pT ∈ D, (∀ q ∈ pT.2, 0 < q.2 ∧ q.2 ≤ 1) ∧ ∃ q ∈ pT.2, q.2 = 1 :=
  scores_in_unit_interval_max_one (initState ℝ) STOPWORDS
    ["cat dog cat", "dog bird"] ["2018-01-01", "2018-01-02"] "%Y-%m-%d" "month"
    [("January 2018",
      [(Token.uni "cat", 2), (Token.uni "dog", 2), (Token.uni "bird", 1)])]
    (by decide) (by decide)

/-- Claim C10: the pipeline is deterministic and free of hidden inputs:
two runs of `score_documents` (and of `generate_font_sizes` on their
results) with equal documents, dates, parameters, equal `collocations`
configuration and the same global stopword resource return equal score
tables and equal font-size tables, even when the two scorer objects
differ in every other attribute (`stopwords`, `max_font_size`,
`word_regexp`, `documents_scores`) — those are never read by the
computation. -/
theorem pipeline_deterministic {K : Type} [LinearOrderedField K] [FloorRing K]
    (sqrt log : K → K) (stop₁ stop₂ : List String) (σ₁ σ₂ : State K)
    (docs₁ docs₂ dates₁ dates₂ : List String) (fmt₁ fmt₂ unit₁ unit₂ : String)
    (hstop : stop₁ = stop₂) (hcol : σ₁.collocations = σ₂.collocations)
    (hdocs : docs₁ = docs₂) (hdates : dates₁ = dates₂)
    (hfmt : fmt₁ = fmt₂) (hunit : unit₁ = unit₂) :
    (score_documents sqrt log stop₁ σ₁ docs₁ dates₁ fmt₁ unit₁).map Prod.fst =
      (score_documents sqrt log stop₂ σ₂ docs₂ dates₂ fmt₂ unit₂).map Prod.fst ∧
    (score_documents sqrt log stop₁ σ₁ docs₁ dates₁ fmt₁ unit₁).map
        (fun r => generate_font_sizes σ₁ r.1) =
      (score_documents sqrt log stop₂ σ₂ docs₂ dates₂ fmt₂ unit₂).map
        (fun r => generate_font_sizes σ₂ r.1) := by
  subst hstop hdocs hdates hfmt hunit
  unfold score_documents
  rw [hcol]
  cases score_documents_core sqrt log stop₁ σ₂.collocations docs₁ dates₁ fmt₁ unit₁ with
  | error e => exact ⟨rfl, rfl⟩
  | ok D => exact ⟨rfl, rfl⟩

/-- Claim C10 witness: two scorer objects differing in `stopwords`,
`max_font_size`, `word_regexp` and `documents_scores` (but agreeing on
`collocations`) produce identical score tables and font-size tables on
the same input. -/
theorem pipeline_deterministic_witness :
    (score_documents (K := ℚ) id id STOPWORDS (initState ℚ)
        ["cat"] ["2018-01-01"] "%Y-%m-%d" "month").map Prod.fst =
      (score_documents (K := ℚ) id id STOPWORDS
        { stopwords := [], max_font_size := some 7, word_regexp := "x",
          collocations := false, documents_scores := some [] }
        ["cat"] ["2018-01-01"] "%Y-%m-%d" "month").map Prod.fst ∧
    (score_documents (K := ℚ) id id STOPWORDS (initState ℚ)
        ["cat"] ["2018-01-01"] "%Y-%m-%d" "month").map
        (fun r => generate_font_sizes (initState ℚ) r.1) =
      (score_documents (K := ℚ) id id STOPWORDS
        { stopwords := [], max_font_size := some 7, word_regexp := "x",
          collocations := false, documents_scores := some [] }
        ["cat"] ["2018-01-01"] "%Y-%m-%d" "month").map
        (fun r => generate_font_sizes
          { stopwords := [], max_font_size := some 7, word_regexp := "x",
            collocations := false, documents_scores := some [] } r.1) :=
  pipeline_deterministic id id STOPWORDS STOPWORDS (initState ℚ)
    { stopwords := [], max_font_size := some 7, word_regexp := "x",
      collocations := false, documents_scores := some [] }
    ["cat"] ["cat"] ["2018-01-01"] ["2018-01-01"] "%Y-%m-%d" "%Y-%m-%d"
    "month" "month" rfl rfl rfl rfl rfl rfl

end TempoTFIDF
